import Mathlib

/-!
Shallow embedding of the touch-session data model of the
screen-touch-checker app: the zustand session store
(startSession / endSession / cancelSession / markCellStatus), the grid
test screen's tap handler and zone heuristic, the heatmap aggregation of
HeatmapScreen.tsx, and the SQLite persistence layer of database.ts.

JavaScript numbers that are used as integers (timestamps, counts, grid
indices) are modelled as Nat or Int; screen coordinates (floats) as Rat.
Store actions that in the source are void functions mutating the zustand
state are modelled as functions from an explicit SessionState to a new
SessionState, wrapped in Except SessionError: the error type names the
failure kinds the specification mandates, and a source path that throws
nothing is translated to a function that only ever returns ok.
-/

namespace ScreenTouch

/-- Cell statuses of the grid test, from types.ts. -/
inductive CellStatus
  | untested
  | ok
  | faulty
  | ghost
deriving DecidableEq, Repr

/-- Hardware zones, from types.ts. -/
inductive HardwareZone
  | digitizer_top
  | digitizer_bottom
  | digitizer_left_edge
  | digitizer_right_edge
  | lcd_connector
  | battery_connector
  | front_camera_flex
  | home_button_flex
  | full_digitizer
deriving DecidableEq, Repr

/-- Session types, from types.ts. -/
inductive SessionType
  | grid
  | ghost_monitor
  | multi_touch
deriving DecidableEq, Repr

/-- Session statuses, from types.ts. -/
inductive SessionStatus
  | active
  | completed
  | cancelled
deriving DecidableEq, Repr

/-- Severity levels of a faulty area, from types.ts. -/
inductive Severity
  | low
  | medium
  | high
deriving DecidableEq, Repr

/-- TouchPoint, from types.ts.  The optional isGhost flag is modelled as a
Bool because every consumer of the field reads it with JavaScript
truthiness, under which undefined and false coincide. -/
structure TouchPoint where
  id : String
  x : ℚ
  y : ℚ
  timestamp : ℕ
  pressure : Option ℚ
  isGhost : Bool
deriving DecidableEq, Repr

/-- GridCell, from types.ts.  Row and column are JavaScript numbers and
are modelled as Int so that out-of-range (including negative) indices are
expressible. -/
structure GridCell where
  row : ℤ
  col : ℤ
  status : CellStatus
  touchCount : ℕ
  lastTouched : Option ℕ
deriving DecidableEq, Repr

/-- FaultyArea, from types.ts. -/
structure FaultyArea where
  id : String
  label : String
  xPercent : ℚ
  yPercent : ℚ
  widthPercent : ℚ
  heightPercent : ℚ
  severity : Severity
  hardwareZone : Option HardwareZone
deriving DecidableEq, Repr

/-- DiagnosticSession, from types.ts.  faultyAreas is optional in the
TypeScript interface; the store treats a missing list as empty, so it is
modelled as a plain list. -/
structure DiagnosticSession where
  id : String
  type : SessionType
  status : SessionStatus
  startedAt : ℕ
  endedAt : Option ℕ
  touchPoints : List TouchPoint
  gridCells : Option (List GridCell)
  faultyAreas : List FaultyArea
  notes : Option String
  deviceModel : Option String
deriving DecidableEq, Repr

/-- The in-memory zustand store state of useSessionStore.ts: the loaded
history list and the single active-session slot. -/
structure SessionState where
  sessions : List DiagnosticSession
  activeSession : Option DiagnosticSession
deriving DecidableEq, Repr

/-- Error kinds named by the specification (section 7).  The store source
never signals any of them; the Except wrapper records where it would. -/
inductive SessionError
  | NoActiveSession
  | OutOfBounds
  | SessionNotFound
deriving DecidableEq, Repr

/-- GRID_ROWS from constants/index.ts. -/
def GRID_ROWS : ℕ := 10

/-- GRID_COLS from constants/index.ts. -/
def GRID_COLS : ℕ := 6

/-- buildEmptyGrid from useSessionStore.ts: the eagerly allocated
GRID_ROWS by GRID_COLS matrix of untested cells. -/
def buildEmptyGrid : List GridCell :=
  (List.range GRID_ROWS).flatMap fun r =>
    (List.range GRID_COLS).map fun c =>
      { row := (r : ℤ), col := (c : ℤ), status := .untested, touchCount := 0,
        lastTouched := none }

/-- The fresh session object built by startSession in useSessionStore.ts.
The generated id and Date.now() timestamp are passed in as parameters. -/
def freshSession (ty : SessionType) (deviceModel : Option String)
    (id : String) (now : ℕ) : DiagnosticSession :=
  { id := id, type := ty, status := .active, startedAt := now, endedAt := none,
    touchPoints := [],
    gridCells := if ty = .grid then some buildEmptyGrid else none,
    faultyAreas := [], notes := none, deviceModel := deviceModel }

/-- startSession from useSessionStore.ts: builds a fresh active session
and stores it in the active slot, with no guard on the slot being
occupied. -/
def startSession (st : SessionState) (ty : SessionType)
    (deviceModel : Option String) (id : String) (now : ℕ) :
    Except SessionError (DiagnosticSession × SessionState) :=
  let session := freshSession ty deviceModel id now
  .ok (session, { st with activeSession := some session })

/-- endSession from useSessionStore.ts: returns silently when no session
is active; otherwise completes the active session, stamps endedAt,
attaches the notes, prepends it to the history list and clears the
active slot.  (The db.saveSession call it also performs is modelled
separately by the persistence layer below.) -/
def endSession (st : SessionState) (notes : Option String) (now : ℕ) :
    Except SessionError SessionState :=
  match st.activeSession with
  | none => .ok st
  | some active =>
    let completed : DiagnosticSession :=
      { active with status := .completed, endedAt := some now, notes := notes }
    .ok { activeSession := none, sessions := completed :: st.sessions }

/-- cancelSession from useSessionStore.ts: unconditionally clears the
active slot. -/
def cancelSession (st : SessionState) : SessionState :=
  { st with activeSession := none }

/-- recordTouch from useSessionStore.ts: appends a touch point to the
active session, silently doing nothing when no session is active. -/
def recordTouch (st : SessionState) (point : TouchPoint) :
    Except SessionError SessionState :=
  match st.activeSession with
  | none => .ok st
  | some active =>
    let updated := { active with touchPoints := active.touchPoints ++ [point] }
    .ok { st with activeSession := some updated }

/-- The per-cell update function of markCellStatus: a cell matching the
pressed (row, col) gets the new status, an incremented touchCount and a
fresh lastTouched stamp; every other cell is returned unchanged. -/
def markFn (row col : ℤ) (status : CellStatus) (now : ℕ) (cell : GridCell) :
    GridCell :=
  if cell.row == row && cell.col == col then
    { cell with status := status, touchCount := cell.touchCount + 1, lastTouched := some now }
  else cell

/-- markCellStatus from useSessionStore.ts: returns silently when there is
no active session or the active session has no grid; otherwise maps over
the cells, replacing every cell whose (row, col) matches with a copy whose
status is set, touchCount incremented and lastTouched stamped. -/
def markCellStatus (st : SessionState) (row col : ℤ) (status : CellStatus)
    (now : ℕ) : Except SessionError SessionState :=
  match st.activeSession with
  | none => .ok st
  | some active =>
    match active.gridCells with
    | none => .ok st
    | some cells =>
      let updatedCells := cells.map (markFn row col status now)
      let updated := { active with gridCells := some updatedCells }
      .ok { st with activeSession := some updated }

/-- The cell lookup performed by the grid screen (part of
handleCellPress): activeSession?.gridCells ?? [] searched for the pressed
(row, col). -/
def cellAt (st : SessionState) (row col : ℤ) : Option GridCell :=
  ((st.activeSession.bind fun s => s.gridCells).getD []).find? fun c =>
    c.row == row && c.col == col

/-- handleCellPress from the grid test screen: ignores presses before the
session starts or after it finishes; otherwise looks the pressed cell up
and marks it faulty when it is currently ok, and ok in every other
case. -/
def handleCellPress (started finished : Bool) (st : SessionState)
    (row col : ℤ) (now : ℕ) : Except SessionError SessionState :=
  if !started || finished then .ok st
  else
    match cellAt st row col with
    | none => .ok st
    | some cell =>
      if cell.status = .ok then markCellStatus st row col .faulty now
      else markCellStatus st row col .ok now

/-- zoneForCell from the grid test screen: the ordered position heuristic
assigning a hardware zone to a grid coordinate. -/
def zoneForCell (row col totalRows totalCols : ℤ) : HardwareZone :=
  let isTop := row < 2
  let isBottom := totalRows - 2 ≤ row
  let isLeft := col = 0
  let isRight := col = totalCols - 1
  if isTop then .digitizer_top
  else if isBottom then .digitizer_bottom
  else if isLeft then .digitizer_left_edge
  else if isRight then .digitizer_right_edge
  else .lcd_connector

/-- The local cellSize constant of buildHeatCells in HeatmapScreen.tsx. -/
def cellSize : ℚ := 20

/-- The point data buildHeatCells reads from a TouchPoint: its x and y
coordinates. -/
structure HeatPt where
  x : ℚ
  y : ℚ
deriving DecidableEq, Repr

/-- HeatCell, from HeatmapScreen.tsx. -/
structure HeatCell where
  x : ℚ
  y : ℚ
  count : ℕ
  normalizedIntensity : ℚ
deriving DecidableEq, Repr

/-- Math.ceil(containerW / cellSize), the column count of the heat
grid. -/
def heatCols (containerW : ℚ) : ℕ := ⌈containerW / cellSize⌉.toNat

/-- Math.ceil(containerH / cellSize), the row count of the heat grid. -/
def heatRows (containerH : ℚ) : ℕ := ⌈containerH / cellSize⌉.toNat

/-- Math.floor((pt.x / containerW) * cols), a point's column bin. -/
def binCol (pt : HeatPt) (containerW : ℚ) (cols : ℕ) : ℤ :=
  ⌊pt.x / containerW * (cols : ℚ)⌋

/-- Math.floor((pt.y / containerH) * rows), a point's row bin. -/
def binRow (pt : HeatPt) (containerH : ℚ) (rows : ℕ) : ℤ :=
  ⌊pt.y / containerH * (rows : ℚ)⌋

/-- The entry grid[r][c] of the nested count array, with the in-range
accesses of the source rendered total through default values. -/
def gridEntry (grid : List (List ℕ)) (r c : ℕ) : ℕ :=
  (grid.getD r []).getD c 0

/-- The statement grid[row][col] += 1 of buildHeatCells. -/
def bumpCell (grid : List (List ℕ)) (r c : ℕ) : List (List ℕ) :=
  grid.set r ((grid.getD r []).set c ((grid.getD r []).getD c 0 + 1))

/-- The body of the accumulation loop of buildHeatCells: bin the point
and count it when both bin indices are in range, otherwise leave the grid
untouched. -/
def accumPoint (containerW containerH : ℚ) (cols rows : ℕ)
    (grid : List (List ℕ)) (pt : HeatPt) : List (List ℕ) :=
  let col := binCol pt containerW cols
  let row := binRow pt containerH rows
  if 0 ≤ row ∧ row < (rows : ℤ) ∧ 0 ≤ col ∧ col < (cols : ℤ) then
    bumpCell grid row.toNat col.toNat
  else grid

/-- The fully accumulated count grid of buildHeatCells, starting from a
rows-by-cols matrix of zeroes. -/
def heatGrid (points : List HeatPt) (containerW containerH : ℚ) :
    List (List ℕ) :=
  points.foldl
    (accumPoint containerW containerH (heatCols containerW) (heatRows containerH))
    (List.replicate (heatRows containerH) (List.replicate (heatCols containerW) 0))

/-- buildHeatCells from HeatmapScreen.tsx: early return on an empty point
list, otherwise bin the points, take maxCount = Math.max(1, ...counts),
and emit one HeatCell per non-empty bin in row-major order. -/
def buildHeatCells (points : List HeatPt) (containerW containerH : ℚ) :
    List HeatCell :=
  if points.length = 0 then []
  else
    let cols := heatCols containerW
    let rows := heatRows containerH
    let grid := heatGrid points containerW containerH
    let maxCount := grid.flatten.foldl max 1
    (List.range rows).flatMap fun r =>
      (List.range cols).filterMap fun c =>
        if 0 < gridEntry grid r c then
          some { x := (c : ℚ) * cellSize, y := (r : ℚ) * cellSize,
                 count := gridEntry grid r c,
                 normalizedIntensity := (gridEntry grid r c : ℚ) / (maxCount : ℚ) }
        else none

/-- A row of the sessions table of database.ts: exactly the seven columns
written by saveSession (the synced column, never written or read by the
modelled functions, is omitted). -/
structure SessionRow where
  id : String
  type : SessionType
  status : SessionStatus
  started_at : ℕ
  ended_at : Option ℕ
  notes : Option String
  device_model : Option String
deriving DecidableEq, Repr

/-- A row of the touch_points table of database.ts. -/
structure TouchPointRow where
  id : String
  session_id : String
  x : ℚ
  y : ℚ
  timestamp : ℕ
  pressure : Option ℚ
  is_ghost : ℕ
deriving DecidableEq, Repr

/-- The SQLite database state: the two tables the modelled functions
touch, each a list of rows in rowid (insertion) order. -/
structure Db where
  sessions : List SessionRow
  touch_points : List TouchPointRow
deriving DecidableEq, Repr

/-- INSERT OR REPLACE on the sessions table, keyed on the primary key id:
an existing row with the same id is replaced in place, otherwise the new
row is appended. -/
def insertOrReplaceSession (tbl : List SessionRow) (r : SessionRow) :
    List SessionRow :=
  if tbl.any fun x => x.id == r.id then
    tbl.map fun x => if x.id == r.id then r else x
  else tbl ++ [r]

/-- INSERT OR REPLACE on the touch_points table, keyed on the primary key
id. -/
def insertOrReplaceTouchPoint (tbl : List TouchPointRow) (r : TouchPointRow) :
    List TouchPointRow :=
  if tbl.any fun x => x.id == r.id then
    tbl.map fun x => if x.id == r.id then r else x
  else tbl ++ [r]

/-- The session row written by saveSession: only the seven metadata
columns; gridCells and faultyAreas have no column. -/
def sessionToRow (s : DiagnosticSession) : SessionRow :=
  { id := s.id, type := s.type, status := s.status, started_at := s.startedAt,
    ended_at := s.endedAt, notes := s.notes, device_model := s.deviceModel }

/-- The touch_points row written by saveSession for one touch point:
isGhost is stored as the integer 1 or 0. -/
def touchPointToRow (sessionId : String) (tp : TouchPoint) : TouchPointRow :=
  { id := tp.id, session_id := sessionId, x := tp.x, y := tp.y,
    timestamp := tp.timestamp, pressure := tp.pressure,
    is_ghost := if tp.isGhost then 1 else 0 }

/-- saveSession from database.ts: upsert the session row, then upsert one
touch_points row per touch point of the session, in order. -/
def saveSession (db : Db) (s : DiagnosticSession) : Db :=
  let db1 : Db := { db with sessions := insertOrReplaceSession db.sessions (sessionToRow s) }
  s.touchPoints.foldl
    (fun d tp =>
      { d with touch_points := insertOrReplaceTouchPoint d.touch_points (touchPointToRow s.id tp) })
    db1

/-- The decoding of a touch_points row performed by getSessionById:
is_ghost === 1 becomes the boolean flag. -/
def rowToTouchPoint (t : TouchPointRow) : TouchPoint :=
  { id := t.id, x := t.x, y := t.y, timestamp := t.timestamp,
    pressure := t.pressure, isGhost := t.is_ghost == 1 }

/-- getSessionById from database.ts: look the session row up by id,
collect the touch_points rows with that session_id, and rebuild a
DiagnosticSession with an empty faultyAreas list and no gridCells. -/
def getSessionById (db : Db) (id : String) : Option DiagnosticSession :=
  match db.sessions.find? fun r => r.id == id with
  | none => none
  | some row =>
    let touchPoints := (db.touch_points.filter fun t => t.session_id == id).map rowToTouchPoint
    some { id := row.id, type := row.type, status := row.status,
           startedAt := row.started_at, endedAt := row.ended_at,
           touchPoints := touchPoints, gridCells := none, faultyAreas := [],
           notes := row.notes, deviceModel := row.device_model }

/-- getSessions from database.ts: all session rows ordered by started_at
descending (a stable sort models the ORDER BY), each rebuilt with empty
touch points and faulty areas and no grid cells. -/
def getSessions (db : Db) : List DiagnosticSession :=
  (db.sessions.mergeSort fun a b => decide (b.started_at ≤ a.started_at)).map fun r =>
    { id := r.id, type := r.type, status := r.status, startedAt := r.started_at,
      endedAt := r.ended_at, touchPoints := [], gridCells := none,
      faultyAreas := [], notes := r.notes, deviceModel := r.device_model }

/-! Concrete fixtures used by witnesses and counterexamples. -/

/-- A grid session as startSession builds it. -/
def sessionA : DiagnosticSession := freshSession .grid none "s1" 0

/-- A store state whose active slot holds sessionA. -/
def stGrid : SessionState := { sessions := [], activeSession := some sessionA }

/-- A store state with no active session. -/
def stEmpty : SessionState := { sessions := [], activeSession := none }

/-- The untested cell (2, 3) of the fresh grid. -/
def cellU : GridCell :=
  { row := 2, col := 3, status := .untested, touchCount := 0, lastTouched := none }

/-- A faulty cell for the reset-to-ok scenarios. -/
def cellF : GridCell :=
  { row := 0, col := 0, status := .faulty, touchCount := 2, lastTouched := some 1 }

/-- A store state whose active grid holds the single faulty cell. -/
def stFaulty : SessionState :=
  { sessions := [],
    activeSession := some { sessionA with gridCells := some [cellF] } }

/-- An empty database. -/
def dbEmpty : Db := { sessions := [], touch_points := [] }

/-- A stored session row. -/
def rowA : SessionRow :=
  { id := "a", type := .grid, status := .completed, started_at := 3,
    ended_at := some 5, notes := none, device_model := none }

/-- A database holding only rowA. -/
def dbA : Db := { sessions := [rowA], touch_points := [] }

/-- The session getSessionById rebuilds from rowA. -/
def sessionFromRowA : DiagnosticSession :=
  { id := "a", type := .grid, status := .completed, startedAt := 3,
    endedAt := some 5, touchPoints := [], gridCells := none, faultyAreas := [],
    notes := none, deviceModel := none }

/-- Two touch points with distinct ids. -/
def tpB1 : TouchPoint :=
  { id := "t1", x := 3, y := 4, timestamp := 11, pressure := none, isGhost := false }

/-- Second touch point, a ghost one with a pressure reading. -/
def tpB2 : TouchPoint :=
  { id := "t2", x := 5, y := 6, timestamp := 12, pressure := some 1, isGhost := true }

/-- A completed session carrying the two touch points. -/
def sessionB : DiagnosticSession :=
  { id := "b", type := .ghost_monitor, status := .completed, startedAt := 10,
    endedAt := some 20, touchPoints := [tpB1, tpB2], gridCells := none,
    faultyAreas := [], notes := some "done", deviceModel := some "phone" }

/-! Theorems. -/

/-- C1: the claim mandates that startSession fail while an active session
exists; the source startSession has no guard: it always succeeds, installs
the fresh session in the active slot, and leaves the history list
untouched, so the previously active session is silently discarded. -/
theorem startSession_silently_replaces_active (st : SessionState)
    (s : DiagnosticSession) (ty : SessionType) (dm : Option String)
    (id : String) (now : ℕ) (h : st.activeSession = some s) :
    startSession st ty dm id now =
      .ok (freshSession ty dm id now,
        { st with activeSession := some (freshSession ty dm id now) }) ∧
    ({ st with activeSession := some (freshSession ty dm id now) } : SessionState).sessions
      = st.sessions :=
  ⟨rfl, rfl⟩

/-- Witness for C1: starting a second session over the active sessionA
succeeds and replaces it. -/
theorem startSession_silently_replaces_active_witness :
    stGrid.activeSession = some sessionA ∧
    (startSession stGrid .grid none "s2" 5 =
      .ok (freshSession .grid none "s2" 5,
        { stGrid with activeSession := some (freshSession .grid none "s2" 5) }) ∧
    ({ stGrid with activeSession := some (freshSession .grid none "s2" 5) } : SessionState).sessions
      = stGrid.sessions) :=
  ⟨rfl, startSession_silently_replaces_active stGrid sessionA .grid none "s2" 5 rfl⟩

/-- C3 counterexample: endSession with no active session returns silently
with the state unchanged; it does not signal NoActiveSession. -/
theorem endSession_no_active_is_silent_cex :
    endSession stEmpty none 0 = .ok stEmpty ∧
    endSession stEmpty none 0 ≠ .error SessionError.NoActiveSession :=
  ⟨rfl, fun h => nomatch h⟩

/-- C3 amended: endSession with no active session is a silent no-op (it
returns ok with the state unchanged rather than failing); with an active
session it marks it completed, stamps endedAt, attaches the notes,
prepends it to the history list, and clears the active slot. -/
theorem endSession_noop_or_finalize (st : SessionState) (notes : Option String)
    (now : ℕ) :
    (st.activeSession = none → endSession st notes now = .ok st) ∧
    (∀ a, st.activeSession = some a →
      endSession st notes now =
        .ok { sessions := { a with status := .completed, endedAt := some now, notes := notes } :: st.sessions, activeSession := none }) := by
  constructor
  · intro h
    simp [endSession, h]
  · intro a h
    simp [endSession, h]

/-- Witness for C3: ending the active sessionA completes it, stamps the
time, attaches the notes, prepends it and clears the slot. -/
theorem endSession_noop_or_finalize_witness :
    stGrid.activeSession = some sessionA ∧
    endSession stGrid (some "n") 9 =
      .ok { sessions := [{ sessionA with status := .completed, endedAt := some 9, notes := some "n" }], activeSession := none } :=
  ⟨rfl, (endSession_noop_or_finalize stGrid (some "n") 9).2 sessionA rfl⟩

/-- C2 counterexample: marking cell (100, 0) of the active grid session,
far outside the 10 by 6 grid, does not fail with OutOfBounds: it returns
ok with the state unchanged. -/
theorem markCellStatus_oob_no_error_cex :
    markCellStatus stGrid 100 0 .faulty 7 = .ok stGrid ∧
    markCellStatus stGrid 100 0 .faulty 7 ≠ .error SessionError.OutOfBounds := by
  constructor
  · rfl
  · intro h
    exact absurd (rfl.trans h) (fun hh => nomatch hh)

/-- C2 amended: on an active grid session all of whose cells lie inside
the 10 by 6 grid, markCellStatus with row or col outside the grid bounds
returns ok with the state exactly unchanged (a silent no-op: every cell
keeps its status, touchCount and lastTouched, and no OutOfBounds error is
signalled). -/
theorem markCellStatus_oob_silent_noop (st : SessionState)
    (active : DiagnosticSession) (cells : List GridCell) (row col : ℤ)
    (status : CellStatus) (now : ℕ)
    (hact : st.activeSession = some active)
    (hcells : active.gridCells = some cells)
    (hinv : ∀ c ∈ cells, 0 ≤ c.row ∧ c.row < (GRID_ROWS : ℤ) ∧ 0 ≤ c.col ∧ c.col < (GRID_COLS : ℤ))
    (hoob : row < 0 ∨ (GRID_ROWS : ℤ) ≤ row ∨ col < 0 ∨ (GRID_COLS : ℤ) ≤ col) :
    markCellStatus st row col status now = .ok st := by
  have hmap : cells.map (markFn row col status now) = cells := by
    have : ∀ c ∈ cells, markFn row col status now c = c := by
      intro c hc
      have hb := hinv c hc
      have hcond : ¬((c.row == row && c.col == col) = true) := by
        simp only [Bool.and_eq_true, beq_iff_eq]
        rintro ⟨h1, h2⟩
        simp only [GRID_ROWS, GRID_COLS] at hb hoob
        rcases hoob with h | h | h | h <;> omega
      simp [markFn, hcond]
    calc (cells.map _) = cells.map id := List.map_congr_left this
    _ = cells := List.map_id cells
  have hsess : ({ active with gridCells := some cells } : DiagnosticSession) = active := by
    cases active
    simp only at hcells
    rw [← hcells]
  have hstate : ({ st with activeSession := some active } : SessionState) = st := by
    cases st
    simp only at hact
    rw [← hact]
  simp only [markCellStatus, hact, hcells, hmap, hsess, hstate]

/-- Witness for C2 amended: out-of-bounds row 100 on the freshly started
grid session leaves the state untouched. -/
theorem markCellStatus_oob_silent_noop_witness :
    stGrid.activeSession = some sessionA ∧
    sessionA.gridCells = some buildEmptyGrid ∧
    (∀ c ∈ buildEmptyGrid, 0 ≤ c.row ∧ c.row < (GRID_ROWS : ℤ) ∧ 0 ≤ c.col ∧ c.col < (GRID_COLS : ℤ)) ∧
    ((100 : ℤ) < 0 ∨ (GRID_ROWS : ℤ) ≤ 100 ∨ (0 : ℤ) < 0 ∨ (GRID_COLS : ℤ) ≤ 0) ∧
    markCellStatus stGrid 100 0 .untested 7 = .ok stGrid :=
  ⟨rfl, rfl, by decide, by decide,
    markCellStatus_oob_silent_noop stGrid sessionA buildEmptyGrid 100 0 .untested 7 rfl rfl
      (by decide) (by decide)⟩

/-- Auxiliary: mapping a function that does not change whether the search
predicate holds commutes with find?. -/
theorem find?_map_pred_inv {α : Type} (l : List α) (f : α → α) (p : α → Bool)
    (h : ∀ x, p (f x) = p x) : (l.map f).find? p = (l.find? p).map f := by
  induction l with
  | nil => rfl
  | cons a l ih =>
    by_cases hpa : p a = true
    · rw [List.map_cons, List.find?_cons_of_pos _ (by rw [h a]; exact hpa),
        List.find?_cons_of_pos _ hpa, Option.map_some']
    · have hpa' : ¬p a = true := hpa
      rw [List.map_cons, List.find?_cons_of_neg _ (by rw [h a]; exact hpa'),
        List.find?_cons_of_neg _ hpa', ih]

/-- Auxiliary: markFn never changes a cell's row or column, hence never
changes whether the cell matches the pressed coordinate. -/
theorem markFn_pred_inv (row col : ℤ) (status : CellStatus) (now : ℕ)
    (x : GridCell) :
    (((markFn row col status now x).row == row && (markFn row col status now x).col == col) : Bool)
      = (x.row == row && x.col == col) := by
  unfold markFn
  by_cases hx : (x.row == row && x.col == col) = true <;> simp [hx]

/-- Auxiliary: a successful cellAt lookup exposes the active session, its
grid and the underlying find?. -/
theorem cellAt_some_elim (st : SessionState) (row col : ℤ) (c0 : GridCell)
    (h : cellAt st row col = some c0) :
    ∃ a cells, st.activeSession = some a ∧ a.gridCells = some cells ∧
      cells.find? (fun c => c.row == row && c.col == col) = some c0 := by
  rcases h1 : st.activeSession with _ | a
  · rw [cellAt, h1] at h
    simp at h
  rcases h2 : a.gridCells with _ | cells
  · rw [cellAt, h1] at h
    simp [h2] at h
  refine ⟨a, cells, rfl, h2, ?_⟩
  rw [cellAt, h1] at h
  simpa [h2] using h

/-- Auxiliary: a press on a found cell marks it faulty when it is
currently ok and ok otherwise, and the same cell looked up afterwards is
the marked copy. -/
theorem handleCellPress_found (st : SessionState) (a : DiagnosticSession)
    (cells : List GridCell) (row col : ℤ) (now : ℕ) (c0 : GridCell)
    (h1 : st.activeSession = some a) (h2 : a.gridCells = some cells)
    (hfind : cells.find? (fun c => c.row == row && c.col == col) = some c0) :
    handleCellPress true false st row col now =
      .ok { st with activeSession := some ({ a with gridCells := some (cells.map (markFn row col (if c0.status = .ok then .faulty else .ok) now)) }) } ∧
    cellAt { st with activeSession := some ({ a with gridCells := some (cells.map (markFn row col (if c0.status = .ok then .faulty else .ok) now)) }) } row col
      = some (markFn row col (if c0.status = .ok then .faulty else .ok) now c0) := by
  have hcellAt : cellAt st row col = some c0 := by
    rw [cellAt, h1]
    simpa [h2] using hfind
  constructor
  · by_cases hok : c0.status = .ok <;>
      simp only [handleCellPress, hcellAt, hok, markCellStatus, h1, h2] <;>
      simp
  · show (cells.map _).find? _ = _
    rw [find?_map_pred_inv cells _ _ (markFn_pred_inv row col _ now), hfind,
      Option.map_some']

/-- C4: on an active grid session, a first tap on an in-bounds cell that
is untested with touchCount 0 sets it to ok with touchCount 1, and a
second tap on the same cell sets it to faulty with touchCount 2. -/
theorem grid_first_tap_ok_second_tap_faulty (st : SessionState) (row col : ℤ)
    (t1 t2 : ℕ) (c0 : GridCell)
    (hfind : cellAt st row col = some c0)
    (hst : c0.status = .untested) (hcnt : c0.touchCount = 0) :
    ∃ st1, handleCellPress true false st row col t1 = .ok st1 ∧
      cellAt st1 row col = some { c0 with status := .ok, touchCount := 1, lastTouched := some t1 } ∧
      ∃ st2, handleCellPress true false st1 row col t2 = .ok st2 ∧
        cellAt st2 row col = some { c0 with status := .faulty, touchCount := 2, lastTouched := some t2 } := by
  obtain ⟨a, cells, h1, h2, hfind'⟩ := cellAt_some_elim st row col c0 hfind
  have hp : (c0.row == row && c0.col == col) = true := by
    simpa using List.find?_some hfind'
  obtain ⟨hpress1, hcell1⟩ := handleCellPress_found st a cells row col t1 c0 h1 h2 hfind'
  have hS1 : (if c0.status = .ok then CellStatus.faulty else .ok) = .ok := by
    rw [hst]
    rfl
  rw [hS1] at hpress1 hcell1
  have hm1 : markFn row col .ok t1 c0 =
      { c0 with status := .ok, touchCount := 1, lastTouched := some t1 } := by
    simp [markFn, hp, hcnt]
  refine ⟨_, hpress1, by rw [hcell1, hm1], ?_⟩
  have hfind1 : (cells.map (markFn row col .ok t1)).find?
      (fun c => c.row == row && c.col == col) =
      some ({ c0 with status := .ok, touchCount := 1, lastTouched := some t1 }) := by
    rw [← hm1]
    exact hcell1
  obtain ⟨hpress2, hcell2⟩ := handleCellPress_found
    ({ st with activeSession := some ({ a with gridCells := some (cells.map (markFn row col .ok t1)) }) })
    ({ a with gridCells := some (cells.map (markFn row col .ok t1)) })
    (cells.map (markFn row col .ok t1)) row col t2
    ({ c0 with status := .ok, touchCount := 1, lastTouched := some t1 }) rfl rfl hfind1
  have hS2 : (if ({ c0 with status := .ok, touchCount := 1, lastTouched := some t1 } : GridCell).status = .ok then CellStatus.faulty else .ok) = .faulty := rfl
  rw [hS2] at hpress2 hcell2
  have hm2 : markFn row col .faulty t2
      ({ c0 with status := .ok, touchCount := 1, lastTouched := some t1 }) =
      { c0 with status := .faulty, touchCount := 2, lastTouched := some t2 } := by
    simp [markFn, hp]
  refine ⟨_, hpress2, ?_⟩
  rw [hcell2, hm2]

/-- Witness for C4: cell (2, 3) of the freshly started grid session goes
untested to ok with count 1, then ok to faulty with count 2. -/
theorem grid_first_tap_ok_second_tap_faulty_witness :
    cellAt stGrid 2 3 = some cellU ∧ cellU.status = .untested ∧ cellU.touchCount = 0 ∧
    (∃ st1, handleCellPress true false stGrid 2 3 1 = .ok st1 ∧
      cellAt st1 2 3 = some { cellU with status := .ok, touchCount := 1, lastTouched := some 1 } ∧
      ∃ st2, handleCellPress true false st1 2 3 2 = .ok st2 ∧
        cellAt st2 2 3 = some { cellU with status := .faulty, touchCount := 2, lastTouched := some 2 }) :=
  ⟨by decide, rfl, rfl,
    grid_first_tap_ok_second_tap_faulty stGrid 2 3 1 2 cellU (by decide) rfl rfl⟩

/-- C10: a tap on a cell currently faulty or ghost sets it back to ok and
increments its touchCount, and the only way a tap can leave a cell faulty
is that the cell was exactly ok before, so faulty is not sticky. -/
theorem tap_resets_faulty_or_ghost_to_ok (st : SessionState) (row col : ℤ)
    (now : ℕ) (c0 : GridCell) (hfind : cellAt st row col = some c0) :
    ((c0.status = .faulty ∨ c0.status = .ghost) →
      ∃ st1, handleCellPress true false st row col now = .ok st1 ∧
        cellAt st1 row col = some { c0 with status := .ok, touchCount := c0.touchCount + 1, lastTouched := some now }) ∧
    (∀ st1 c1, handleCellPress true false st row col now = .ok st1 →
      cellAt st1 row col = some c1 → c1.status = .faulty → c0.status = .ok) := by
  obtain ⟨a, cells, h1, h2, hfind'⟩ := cellAt_some_elim st row col c0 hfind
  have hp : (c0.row == row && c0.col == col) = true := by
    simpa using List.find?_some hfind'
  obtain ⟨hpress, hcell⟩ := handleCellPress_found st a cells row col now c0 h1 h2 hfind'
  constructor
  · intro hs
    have hne : ¬c0.status = .ok := by
      rcases hs with h | h <;> simp [h]
    rw [if_neg hne] at hpress hcell
    refine ⟨_, hpress, ?_⟩
    rw [hcell]
    simp [markFn, hp]
  · intro st1 c1 hpr hc1 hs1
    by_cases hok : c0.status = .ok
    · exact hok
    exfalso
    rw [if_neg hok] at hpress hcell
    have hst1 : st1 = _ := Except.ok.inj (hpr.symm.trans hpress)
    subst hst1
    rw [hcell] at hc1
    have hc1' : c1 = markFn row col .ok now c0 := (Option.some.inj hc1).symm
    rw [hc1'] at hs1
    simp [markFn, hp] at hs1

/-- Witness for C10: tapping the faulty cell (0, 0) resets it to ok with
touchCount 3. -/
theorem tap_resets_faulty_or_ghost_to_ok_witness :
    cellAt stFaulty 0 0 = some cellF ∧
    (((cellF.status = .faulty ∨ cellF.status = .ghost) →
      ∃ st1, handleCellPress true false stFaulty 0 0 5 = .ok st1 ∧
        cellAt st1 0 0 = some { cellF with status := .ok, touchCount := cellF.touchCount + 1, lastTouched := some 5 }) ∧
    (∀ st1 c1, handleCellPress true false stFaulty 0 0 5 = .ok st1 →
      cellAt st1 0 0 = some c1 → c1.status = .faulty → cellF.status = .ok)) :=
  ⟨by decide, tap_resets_faulty_or_ghost_to_ok stFaulty 0 0 5 cellF (by decide)⟩

/-- C5: zoneForCell follows the ordered chain of the specification: rows
0 and 1 map to digitizer_top; rows totalRows-2 and totalRows-1 map to
digitizer_bottom; otherwise column 0 maps to digitizer_left_edge;
otherwise the last column maps to digitizer_right_edge; all interior
cells map to lcd_connector; and the top check wins at (0, 0). -/
theorem zoneForCell_ordered_rule (row col totalRows totalCols : ℤ)
    (hr0 : 0 ≤ row) (hr1 : row < totalRows) (hc0 : 0 ≤ col) (hc1 : col < totalCols) :
    (row < 2 → zoneForCell row col totalRows totalCols = .digitizer_top) ∧
    (2 ≤ row → totalRows - 2 ≤ row → zoneForCell row col totalRows totalCols = .digitizer_bottom) ∧
    (2 ≤ row → row < totalRows - 2 → col = 0 → zoneForCell row col totalRows totalCols = .digitizer_left_edge) ∧
    (2 ≤ row → row < totalRows - 2 → col ≠ 0 → col = totalCols - 1 → zoneForCell row col totalRows totalCols = .digitizer_right_edge) ∧
    (2 ≤ row → row < totalRows - 2 → col ≠ 0 → col ≠ totalCols - 1 → zoneForCell row col totalRows totalCols = .lcd_connector) ∧
    zoneForCell 0 0 totalRows totalCols = .digitizer_top := by
  simp only [zoneForCell]
  refine ⟨?_, ?_, ?_, ?_, ?_, ?_⟩ <;> intros <;> split_ifs <;> first | rfl | omega

/-- Witness for C5: at cell (0, 0) of the 10 by 6 grid the rule yields
digitizer_top, exercising the priority of the top check. -/
theorem zoneForCell_ordered_rule_witness :
    ((0 : ℤ) < 2 → zoneForCell 0 0 10 6 = .digitizer_top) ∧
    ((2 : ℤ) ≤ 0 → (10 : ℤ) - 2 ≤ 0 → zoneForCell 0 0 10 6 = .digitizer_bottom) ∧
    ((2 : ℤ) ≤ 0 → (0 : ℤ) < 10 - 2 → (0 : ℤ) = 0 → zoneForCell 0 0 10 6 = .digitizer_left_edge) ∧
    ((2 : ℤ) ≤ 0 → (0 : ℤ) < 10 - 2 → (0 : ℤ) ≠ 0 → (0 : ℤ) = 6 - 1 → zoneForCell 0 0 10 6 = .digitizer_right_edge) ∧
    ((2 : ℤ) ≤ 0 → (0 : ℤ) < 10 - 2 → (0 : ℤ) ≠ 0 → (0 : ℤ) ≠ 6 - 1 → zoneForCell 0 0 10 6 = .lcd_connector) ∧
    zoneForCell 0 0 10 6 = .digitizer_top :=
  zoneForCell_ordered_rule 0 0 10 6 (by decide) (by decide) (by decide) (by decide)

/-- C9: persistence drops grid cells and faulty areas: saveSession writes
the same database rows whatever gridCells and faultyAreas the session
carries, and every session coming back from getSessionById or getSessions
has an empty faultyAreas list and no gridCells. -/
theorem persistence_never_stores_grid_or_faulty (db : Db)
    (s : DiagnosticSession) (g : Option (List GridCell)) (f : List FaultyArea)
    (id : String) :
    saveSession db { s with gridCells := g, faultyAreas := f } = saveSession db s ∧
    (∀ s2, getSessionById db id = some s2 → s2.faultyAreas = [] ∧ s2.gridCells = none) ∧
    (∀ s2 ∈ getSessions db, s2.faultyAreas = [] ∧ s2.gridCells = none) := by
  refine ⟨rfl, ?_, ?_⟩
  · intro s2 h
    rcases hf : db.sessions.find? (fun r => r.id == id) with _ | row
    · simp only [getSessionById, hf] at h
      exact absurd h (by simp)
    · simp only [getSessionById, hf, Option.some.injEq] at h
      rw [← h]
      exact ⟨rfl, rfl⟩
  · intro s2 h
    rw [getSessions] at h
    obtain ⟨r, -, rfl⟩ := List.mem_map.mp h
    exact ⟨rfl, rfl⟩

/-- Witness for C9: the session rebuilt from the stored rowA comes back
with empty faultyAreas and no gridCells. -/
theorem persistence_never_stores_grid_or_faulty_witness :
    getSessionById dbA "a" = some sessionFromRowA ∧
    (sessionFromRowA.faultyAreas = [] ∧ sessionFromRowA.gridCells = none) :=
  ⟨by decide,
    (persistence_never_stores_grid_or_faulty dbA sessionB none [] "a").2.1
      sessionFromRowA (by decide)⟩

/-- Auxiliary: find? skips a prefix none of whose elements satisfies the
predicate. -/
theorem find?_append_right {α : Type} (l1 l2 : List α) (p : α → Bool)
    (h : ∀ x ∈ l1, ¬p x = true) : (l1 ++ l2).find? p = l2.find? p := by
  induction l1 with
  | nil => rfl
  | cons a l1 ih =>
    rw [List.cons_append, List.find?_cons_of_neg _ (h a (by simp))]
    exact ih (fun x hx => h x (by simp [hx]))

/-- Auxiliary: upserting a touch point row with a fresh id appends it. -/
theorem insertOrReplaceTouchPoint_fresh (tbl : List TouchPointRow)
    (r : TouchPointRow) (h : ∀ x ∈ tbl, x.id ≠ r.id) :
    insertOrReplaceTouchPoint tbl r = tbl ++ [r] := by
  have hany : (tbl.any fun x => x.id == r.id) = false := by
    rw [List.any_eq_false]
    intro x hx
    simp [h x hx]
  simp [insertOrReplaceTouchPoint, hany]

/-- Auxiliary: the touch-point loop of saveSession appends the encoded
rows in order when their ids are mutually distinct and absent from the
table. -/
theorem saveSession_fold_append (sid : String) (tps : List TouchPoint) :
    ∀ d : Db, (tps.map TouchPoint.id).Nodup →
    (∀ t ∈ tps, ∀ x ∈ d.touch_points, x.id ≠ t.id) →
    tps.foldl (fun d tp => { d with touch_points := insertOrReplaceTouchPoint d.touch_points (touchPointToRow sid tp) }) d
      = { d with touch_points := d.touch_points ++ tps.map (touchPointToRow sid) } := by
  induction tps with
  | nil =>
    intro d _ _
    simp
  | cons tp tps ih =>
    intro d hnodup hfresh
    rw [List.foldl_cons]
    have hins : insertOrReplaceTouchPoint d.touch_points (touchPointToRow sid tp)
        = d.touch_points ++ [touchPointToRow sid tp] :=
      insertOrReplaceTouchPoint_fresh _ _ (fun x hx => hfresh tp (by simp) x hx)
    rw [hins]
    simp only [List.map_cons] at hnodup
    have hhead : tp.id ∉ tps.map TouchPoint.id := (List.nodup_cons.mp hnodup).1
    have hfresh2 : ∀ t ∈ tps, ∀ x ∈ d.touch_points ++ [touchPointToRow sid tp], x.id ≠ t.id := by
      intro t ht x hx
      rcases List.mem_append.mp hx with hx1 | hx2
      · exact hfresh t (by simp [ht]) x hx1
      · have hx3 : x = touchPointToRow sid tp := by simpa using hx2
        rw [hx3]
        intro heq
        have heq2 : tp.id = t.id := heq
        apply hhead
        rw [heq2]
        exact List.mem_map_of_mem TouchPoint.id ht
    have := ih ({ d with touch_points := d.touch_points ++ [touchPointToRow sid tp] })
      (List.nodup_cons.mp hnodup).2 hfresh2
    rw [this]
    simp

/-- Auxiliary: replacing the matching rows by r puts r at the first match
position. -/
theorem find?_replace_of_any (tbl : List SessionRow) (r : SessionRow)
    (h : (tbl.any fun x => x.id == r.id) = true) :
    (tbl.map fun x => if x.id == r.id then r else x).find? (fun x => x.id == r.id) = some r := by
  induction tbl with
  | nil => simp at h
  | cons a tbl ih =>
    simp only [List.map_cons]
    by_cases ha : (a.id == r.id) = true
    · rw [if_pos ha,
        @List.find?_cons_of_pos SessionRow (fun x => x.id == r.id) r _ (by simp)]
    · rw [if_neg ha,
        @List.find?_cons_of_neg SessionRow (fun x => x.id == r.id) a _ ha]
      apply ih
      simpa [ha] using h

/-- Auxiliary: after an upsert of the session row r, looking the table up
by r's id finds exactly r. -/
theorem find?_insertOrReplaceSession (tbl : List SessionRow) (r : SessionRow)
    (key : String) (hkey : r.id = key) :
    (insertOrReplaceSession tbl r).find? (fun x => x.id == key) = some r := by
  subst hkey
  rw [insertOrReplaceSession]
  by_cases h : (tbl.any fun x => x.id == r.id) = true
  · rw [if_pos h]
    exact find?_replace_of_any tbl r h
  · rw [if_neg h]
    rw [find?_append_right _ _ _ (fun x hx hpx => h (List.any_eq_true.mpr ⟨x, hx, hpx⟩))]
    rw [List.find?_cons_of_pos _ (by simp)]

/-- Auxiliary: decoding inverts encoding of a touch point. -/
theorem rowToTouchPoint_touchPointToRow (sid : String) (tp : TouchPoint) :
    rowToTouchPoint (touchPointToRow sid tp) = tp := by
  cases tp with
  | mk id x y timestamp pressure isGhost => cases isGhost <;> rfl

/-- C8: saving a completed session whose touch point ids are fresh and
mutually distinct, then retrieving it by id, yields exactly the same
touch point list: same count, coordinates, timestamps and ghost flags,
in the original order. -/
theorem save_then_get_roundtrip (db : Db) (s : DiagnosticSession)
    (hnodup : (s.touchPoints.map TouchPoint.id).Nodup)
    (hfresh : ∀ t ∈ s.touchPoints, ∀ x ∈ db.touch_points, x.id ≠ t.id)
    (hsid : ∀ x ∈ db.touch_points, x.session_id ≠ s.id) :
    (getSessionById (saveSession db s) s.id).map DiagnosticSession.touchPoints
      = some s.touchPoints := by
  have hsave : saveSession db s =
      { sessions := insertOrReplaceSession db.sessions (sessionToRow s),
        touch_points := db.touch_points ++ s.touchPoints.map (touchPointToRow s.id) } := by
    simp only [saveSession]
    rw [saveSession_fold_append s.id s.touchPoints
      ({ db with sessions := insertOrReplaceSession db.sessions (sessionToRow s) })
      hnodup (fun t ht x hx => hfresh t ht x hx)]
  rw [hsave]
  rw [getSessionById]
  rw [find?_insertOrReplaceSession db.sessions (sessionToRow s) s.id rfl]
  simp only
  rw [List.filter_append]
  have h1 : db.touch_points.filter (fun t => t.session_id == s.id) = [] := by
    rw [List.filter_eq_nil_iff]
    intro x hx
    simp [hsid x hx]
  have h2 : (s.touchPoints.map (touchPointToRow s.id)).filter (fun t => t.session_id == s.id)
      = s.touchPoints.map (touchPointToRow s.id) := by
    rw [List.filter_eq_self]
    intro x hx
    obtain ⟨tp, -, rfl⟩ := List.mem_map.mp hx
    simp [touchPointToRow]
  rw [h1, h2, List.nil_append, List.map_map]
  have h3 : s.touchPoints.map (rowToTouchPoint ∘ touchPointToRow s.id) = s.touchPoints := by
    calc s.touchPoints.map (rowToTouchPoint ∘ touchPointToRow s.id)
      = s.touchPoints.map id :=
        List.map_congr_left (fun tp _ => rowToTouchPoint_touchPointToRow s.id tp)
    _ = s.touchPoints := List.map_id s.touchPoints
  rw [h3]
  rfl

/-- Witness for C8: the round trip at the concrete sessionB with its two
touch points over the empty database. -/
theorem save_then_get_roundtrip_witness :
    (sessionB.touchPoints.map TouchPoint.id).Nodup ∧
    (∀ t ∈ sessionB.touchPoints, ∀ x ∈ dbEmpty.touch_points, x.id ≠ t.id) ∧
    (∀ x ∈ dbEmpty.touch_points, x.session_id ≠ sessionB.id) ∧
    (getSessionById (saveSession dbEmpty sessionB) sessionB.id).map DiagnosticSession.touchPoints
      = some sessionB.touchPoints :=
  ⟨by decide, by decide, by decide,
    save_then_get_roundtrip dbEmpty sessionB (by decide) (by decide) (by decide)⟩

/-- Auxiliary: reading a replicated matrix of zeroes gives zero
everywhere. -/
theorem gridEntry_replicate (rows cols r c : ℕ) :
    gridEntry (List.replicate rows (List.replicate cols 0)) r c = 0 := by
  unfold gridEntry
  have h1 : (List.replicate rows (List.replicate cols (0:ℕ))).getD r []
      = if r < rows then List.replicate cols 0 else [] := by
    simp [List.getD, List.getElem?_replicate]
    split <;> rfl
  rw [h1]
  split
  · simp [List.getD, List.getElem?_replicate]
    split <;> rfl
  · rfl

/-- Auxiliary: getD after set at the same in-range index reads the new
value. -/
theorem getD_set_self {α : Type} (l : List α) (i : ℕ) (a d : α)
    (h : i < l.length) : (l.set i a).getD i d = a := by
  simp [List.getD, List.getElem?_set_self, h]

/-- Auxiliary: getD after set at a different index is unchanged. -/
theorem getD_set_ne {α : Type} (l : List α) (i j : ℕ) (a d : α)
    (h : i ≠ j) : (l.set i a).getD j d = l.getD j d := by
  simp [List.getD, List.getElem?_set_ne h]

/-- Auxiliary: getD of a replicated list. -/
theorem getD_replicate {α : Type} (n i : ℕ) (a d : α) :
    (List.replicate n a).getD i d = if i < n then a else d := by
  simp [List.getD, List.getElem?_replicate]
  split <;> rfl

/-- Auxiliary: bumping one in-range cell of the zero matrix produces the
delta matrix: entry one at that cell, zero elsewhere. -/
theorem gridEntry_bump_replicate (rows cols i j : ℕ)
    (hi : i < rows) (hj : j < cols) (r c : ℕ) :
    gridEntry (bumpCell (List.replicate rows (List.replicate cols 0)) i j) r c
      = if r = i ∧ c = j then 1 else 0 := by
  have hrow : (List.replicate rows (List.replicate cols (0:ℕ))).getD i []
      = List.replicate cols 0 := by
    rw [getD_replicate]
    exact if_pos hi
  unfold bumpCell gridEntry
  rw [hrow]
  by_cases hr : r = i
  · subst hr
    rw [getD_set_self _ _ _ _ (by simpa using hi)]
    by_cases hc : c = j
    · subst hc
      rw [getD_replicate, if_pos hj, getD_set_self _ _ _ _ (by simpa using hj)]
      simp
    · rw [getD_set_ne _ _ _ _ _ (fun hne => hc hne.symm), getD_replicate]
      have : ¬(r = r ∧ c = j) := fun hand => hc hand.2
      rw [if_neg this]
      split <;> rfl
  · rw [getD_set_ne _ _ _ _ _ (fun hne => hr hne.symm)]
    rw [getD_replicate]
    have : ¬(r = i ∧ c = j) := fun hand => hr hand.1
    rw [if_neg this]
    split
    · rw [getD_replicate]
      split <;> rfl
    · rfl

/-- Auxiliary: folding max over a list bounded by the seed returns the
seed. -/
theorem foldl_max_of_forall_le (l : List ℕ) (a : ℕ) (h : ∀ x ∈ l, x ≤ a) :
    l.foldl max a = a := by
  induction l generalizing a with
  | nil => rfl
  | cons x l ih =>
    rw [List.foldl_cons]
    have hx : max a x = a := max_eq_left (h x (by simp))
    rw [hx]
    exact ih a (fun y hy => h y (by simp [hy]))

/-- Auxiliary: every entry of the bumped zero matrix is at most one. -/
theorem mem_flatten_bump_le_one (rows cols i j : ℕ) (v : ℕ)
    (h : v ∈ (bumpCell (List.replicate rows (List.replicate cols 0)) i j).flatten) :
    v ≤ 1 := by
  obtain ⟨s, hs, hv⟩ := List.mem_flatten.mp h
  rcases List.mem_or_eq_of_mem_set hs with hs1 | hs2
  · have := List.eq_of_mem_replicate hs1
    subst this
    have := List.eq_of_mem_replicate hv
    omega
  · subst hs2
    have hz : (List.replicate rows (List.replicate cols (0:ℕ))).getD i []
        = List.replicate cols 0 ∨
        (List.replicate rows (List.replicate cols (0:ℕ))).getD i [] = [] := by
      rw [getD_replicate]
      split
      · exact Or.inl rfl
      · exact Or.inr rfl
    rcases hz with hz | hz <;> rw [hz] at hv
    · rcases List.mem_or_eq_of_mem_set hv with hv1 | hv2
      · have := List.eq_of_mem_replicate hv1
        omega
      · have hzero : (List.replicate cols (0:ℕ)).getD j 0 = 0 := by
          rw [getD_replicate]
          split <;> rfl
        rw [hzero] at hv2
        omega
    · simp at hv

/-- Auxiliary: a filterMap over a range whose function is none everywhere
in range yields the empty list. -/
theorem filterMap_range_nil {β : Type} (n : ℕ) (f : ℕ → Option β)
    (h : ∀ j < n, f j = none) : (List.range n).filterMap f = [] :=
  List.filterMap_eq_nil_iff.mpr fun a ha => h a (List.mem_range.mp ha)

/-- Auxiliary: a flatMap over a range whose function is nil everywhere in
range yields the empty list. -/
theorem flatMap_range_nil {β : Type} (n : ℕ) (g : ℕ → List β)
    (h : ∀ j < n, g j = []) : (List.range n).flatMap g = [] :=
  List.bind_eq_nil.mpr fun a ha => h a (List.mem_range.mp ha)

/-- Auxiliary: a filterMap over a range that hits exactly at one index
yields the singleton of that hit. -/
theorem filterMap_range_single {β : Type} (n i : ℕ) (f : ℕ → Option β)
    (b : β) (hi : i < n) (hfi : f i = some b)
    (hother : ∀ j < n, j ≠ i → f j = none) :
    (List.range n).filterMap f = [b] := by
  induction n with
  | zero => omega
  | succ n ih =>
    rw [List.range_succ, List.filterMap_append]
    by_cases hin : i = n
    · subst hin
      have h1 : (List.range i).filterMap f = [] :=
        filterMap_range_nil i f (fun j hj => hother j (by omega) (by omega))
      rw [h1]
      simp [hfi]
    · have hi2 : i < n := by omega
      rw [ih hi2 (fun j hj hne => hother j (by omega) hne)]
      have hn : f n = none := hother n (by omega) (fun h => hin h.symm)
      simp [hn]

/-- Auxiliary: a flatMap over a range whose function is nil at every index
but one yields that one block. -/
theorem flatMap_range_single {β : Type} (n i : ℕ) (g : ℕ → List β)
    (hi : i < n) (hother : ∀ j < n, j ≠ i → g j = []) :
    (List.range n).flatMap g = g i := by
  induction n with
  | zero => omega
  | succ n ih =>
    rw [List.range_succ, List.flatMap_append]
    by_cases hin : i = n
    · subst hin
      have h1 : (List.range i).flatMap g = [] :=
        flatMap_range_nil i g (fun j hj => hother j (by omega) (by omega))
      rw [h1]
      simp
    · have hi2 : i < n := by omega
      rw [ih hi2 (fun j hj hne => hother j (by omega) hne)]
      have hn : g n = [] := hother n (by omega) (fun h => hin h.symm)
      simp [hn]

/-- Auxiliary: the heat grid of a single point whose bin indices are in
range is the delta matrix at its bin. -/
theorem heatGrid_single (pt : HeatPt) (W H : ℚ)
    (h : 0 ≤ binRow pt H (heatRows H) ∧ binRow pt H (heatRows H) < ((heatRows H : ℕ) : ℤ) ∧
         0 ≤ binCol pt W (heatCols W) ∧ binCol pt W (heatCols W) < ((heatCols W : ℕ) : ℤ)) :
    heatGrid [pt] W H =
      bumpCell (List.replicate (heatRows H) (List.replicate (heatCols W) 0))
        (binRow pt H (heatRows H)).toNat (binCol pt W (heatCols W)).toNat := by
  simp only [heatGrid, List.foldl_cons, List.foldl_nil, accumPoint]
  rw [if_pos h]

/-- Auxiliary: a flatMap whose blocks are uniformly bounded in length has
length at most the bound times the list length. -/
theorem length_flatMap_le {α β : Type} (l : List α) (g : α → List β) (k : ℕ)
    (h : ∀ a ∈ l, (g a).length ≤ k) :
    (l.flatMap g).length ≤ l.length * k := by
  induction l with
  | nil => simp
  | cons a l ih =>
    rw [List.flatMap_cons, List.length_append]
    have h1 := h a (by simp)
    have h2 := ih (fun x hx => h x (by simp [hx]))
    simp only [List.length_cons]
    calc (g a).length + (l.flatMap g).length ≤ k + l.length * k := by omega
    _ = (l.length + 1) * k := by ring

/-- C6 counterexample: a single point at position (-100, 50) in a 120 by
200 container bins outside the grid, so buildHeatCells discards it and
returns the empty list, not exactly one HeatCell. -/
theorem buildHeatCells_single_point_cex :
    buildHeatCells [{ x := -100, y := 50 }] 120 200 = [] ∧
    (buildHeatCells [{ x := -100, y := 50 }] 120 200).length ≠ 1 := by
  have hcol : binCol { x := -100, y := 50 } 120 (heatCols 120) = -5 := by
    have hcols : heatCols 120 = 6 := by
      have h1 : ⌈(120:ℚ) / cellSize⌉ = 6 := by norm_num [cellSize]
      unfold heatCols
      rw [h1]
      rfl
    rw [hcols]
    unfold binCol
    norm_num
  have hgrid : heatGrid [{ x := -100, y := 50 }] 120 200
      = List.replicate (heatRows 200) (List.replicate (heatCols 120) 0) := by
    simp only [heatGrid, List.foldl_cons, List.foldl_nil, accumPoint]
    rw [if_neg]
    intro hand
    rw [hcol] at hand
    omega
  have hmain : buildHeatCells [{ x := -100, y := 50 }] 120 200 = [] := by
    simp only [buildHeatCells]
    rw [if_neg (by simp), hgrid]
    apply flatMap_range_nil
    intro r hr
    apply filterMap_range_nil
    intro c hc
    rw [gridEntry_replicate]
    simp
  exact ⟨hmain, by rw [hmain]; simp⟩

/-- C6 amended: for the empty point list buildHeatCells returns the empty
list without any division by zero, and for a single point whose position
lies inside the container (0 <= x < W, 0 <= y < H) it returns exactly one
HeatCell with count 1 and normalizedIntensity 1; a single point binning
outside the grid instead yields the empty list. -/
theorem buildHeatCells_single_inbounds (x y W H : ℚ)
    (hW : 0 < W) (hH : 0 < H) (hx0 : 0 ≤ x) (hxW : x < W)
    (hy0 : 0 ≤ y) (hyH : y < H) :
    buildHeatCells [] W H = [] ∧
    ∃ c : HeatCell, buildHeatCells [{ x := x, y := y }] W H = [c] ∧
      c.count = 1 ∧ c.normalizedIntensity = 1 := by
  refine ⟨rfl, ?_⟩
  have h20 : (0:ℚ) < cellSize := by norm_num [cellSize]
  have hcolsPos : 0 < heatCols W := by
    have h1 : 0 < ⌈W / cellSize⌉ := Int.ceil_pos.mpr (div_pos hW h20)
    unfold heatCols
    omega
  have hrowsPos : 0 < heatRows H := by
    have h1 : 0 < ⌈H / cellSize⌉ := Int.ceil_pos.mpr (div_pos hH h20)
    unfold heatRows
    omega
  have hr : 0 ≤ binRow { x := x, y := y } H (heatRows H) ∧
      binRow { x := x, y := y } H (heatRows H) < ((heatRows H : ℕ) : ℤ) := by
    constructor
    · apply Int.floor_nonneg.mpr
      apply mul_nonneg (div_nonneg hy0 hH.le)
      positivity
    · apply Int.floor_lt.mpr
      have h1 : ({ x := x, y := y } : HeatPt).y / H < 1 := (div_lt_one hH).mpr hyH
      have h2 : (0:ℚ) < ((heatRows H : ℕ) : ℚ) := by exact_mod_cast hrowsPos
      calc ({ x := x, y := y } : HeatPt).y / H * ((heatRows H : ℕ) : ℚ)
          < 1 * ((heatRows H : ℕ) : ℚ) := mul_lt_mul_of_pos_right h1 h2
      _ = (((heatRows H : ℕ) : ℤ) : ℚ) := by push_cast; ring
  have hc : 0 ≤ binCol { x := x, y := y } W (heatCols W) ∧
      binCol { x := x, y := y } W (heatCols W) < ((heatCols W : ℕ) : ℤ) := by
    constructor
    · apply Int.floor_nonneg.mpr
      apply mul_nonneg (div_nonneg hx0 hW.le)
      positivity
    · apply Int.floor_lt.mpr
      have h1 : ({ x := x, y := y } : HeatPt).x / W < 1 := (div_lt_one hW).mpr hxW
      have h2 : (0:ℚ) < ((heatCols W : ℕ) : ℚ) := by exact_mod_cast hcolsPos
      calc ({ x := x, y := y } : HeatPt).x / W * ((heatCols W : ℕ) : ℚ)
          < 1 * ((heatCols W : ℕ) : ℚ) := mul_lt_mul_of_pos_right h1 h2
      _ = (((heatCols W : ℕ) : ℚ)) := by ring
  have hgrid := heatGrid_single { x := x, y := y } W H ⟨hr.1, hr.2, hc.1, hc.2⟩
  have hiR : (binRow { x := x, y := y } H (heatRows H)).toNat < heatRows H := by omega
  have hjC : (binCol { x := x, y := y } W (heatCols W)).toNat < heatCols W := by omega
  have hmax : (bumpCell (List.replicate (heatRows H) (List.replicate (heatCols W) 0))
      (binRow { x := x, y := y } H (heatRows H)).toNat
      (binCol { x := x, y := y } W (heatCols W)).toNat).flatten.foldl max 1 = 1 :=
    foldl_max_of_forall_le _ 1 (fun v hv => mem_flatten_bump_le_one _ _ _ _ v hv)
  have hcells : buildHeatCells [{ x := x, y := y }] W H =
      [{ x := ((binCol { x := x, y := y } W (heatCols W)).toNat : ℚ) * cellSize,
         y := ((binRow { x := x, y := y } H (heatRows H)).toNat : ℚ) * cellSize,
         count := 1, normalizedIntensity := ((1:ℕ):ℚ) / ((1:ℕ):ℚ) }] := by
    simp only [buildHeatCells]
    rw [if_neg (by simp), hgrid, hmax]
    simp only [gridEntry_bump_replicate (heatRows H) (heatCols W)
      (binRow { x := x, y := y } H (heatRows H)).toNat
      (binCol { x := x, y := y } W (heatCols W)).toNat hiR hjC]
    rw [flatMap_range_single (heatRows H)
      (binRow { x := x, y := y } H (heatRows H)).toNat _ hiR ?_]
    · rw [filterMap_range_single (heatCols W)
        (binCol { x := x, y := y } W (heatCols W)).toNat _ _ hjC ?_ ?_]
      · have hcond : ((binRow { x := x, y := y } H (heatRows H)).toNat
              = (binRow { x := x, y := y } H (heatRows H)).toNat ∧
            (binCol { x := x, y := y } W (heatCols W)).toNat
              = (binCol { x := x, y := y } W (heatCols W)).toNat) := ⟨rfl, rfl⟩
        rw [if_pos hcond, if_pos (by norm_num : (0:ℕ) < 1)]
      · intro cc hcc hne
        have hcond : ¬((binRow { x := x, y := y } H (heatRows H)).toNat
              = (binRow { x := x, y := y } H (heatRows H)).toNat ∧
            cc = (binCol { x := x, y := y } W (heatCols W)).toNat) :=
          fun hand => hne hand.2
        rw [if_neg hcond]
        simp
    · intro r hrlt hri
      apply filterMap_range_nil
      intro cc hcc
      have hcond : ¬(r = (binRow { x := x, y := y } H (heatRows H)).toNat ∧
          cc = (binCol { x := x, y := y } W (heatCols W)).toNat) :=
        fun hand => hri hand.1
      rw [if_neg hcond]
      simp
  exact ⟨_, hcells, rfl, by norm_num⟩

/-- Witness for C6: the amended statement at the in-bounds point (30, 50)
in a 120 by 200 container. -/
theorem buildHeatCells_single_inbounds_witness :
    (0:ℚ) < 120 ∧ (0:ℚ) < 200 ∧ (0:ℚ) ≤ 30 ∧ (30:ℚ) < 120 ∧ (0:ℚ) ≤ 50 ∧ (50:ℚ) < 200 ∧
    (buildHeatCells [] 120 200 = [] ∧
      ∃ c : HeatCell, buildHeatCells [{ x := 30, y := 50 }] 120 200 = [c] ∧
        c.count = 1 ∧ c.normalizedIntensity = 1) :=
  ⟨by norm_num, by norm_num, by norm_num, by norm_num, by norm_num, by norm_num,
    buildHeatCells_single_inbounds 30 50 120 200 (by norm_num) (by norm_num)
      (by norm_num) (by norm_num) (by norm_num) (by norm_num)⟩

/-- C7: buildHeatCells is total for every point list and positive
container dimensions: every emitted HeatCell has count at least one, the
number of emitted HeatCells is at most rows times cols, and a point whose
bin indices fall outside the grid is discarded, leaving the output
unchanged. -/
theorem buildHeatCells_total_sparse (points : List HeatPt) (W H : ℚ)
    (hW : 0 < W) (hH : 0 < H) :
    (∀ cell ∈ buildHeatCells points W H, 1 ≤ cell.count) ∧
    (buildHeatCells points W H).length ≤ heatRows H * heatCols W ∧
    (∀ p : HeatPt,
      ¬(0 ≤ binRow p H (heatRows H) ∧ binRow p H (heatRows H) < ((heatRows H : ℕ) : ℤ) ∧
        0 ≤ binCol p W (heatCols W) ∧ binCol p W (heatCols W) < ((heatCols W : ℕ) : ℤ)) →
      buildHeatCells (p :: points) W H = buildHeatCells points W H) := by
  refine ⟨?_, ?_, ?_⟩
  · intro cell hmem
    rw [buildHeatCells] at hmem
    by_cases hlen : points.length = 0
    · rw [if_pos hlen] at hmem
      simp at hmem
    · rw [if_neg hlen] at hmem
      obtain ⟨r, hr, hmem2⟩ := List.mem_flatMap.mp hmem
      obtain ⟨c, hc, hsome⟩ := List.mem_filterMap.mp hmem2
      by_cases hpos : 0 < gridEntry (heatGrid points W H) r c
      · rw [if_pos hpos] at hsome
        have hcell := Option.some.inj hsome
        rw [← hcell]
        exact hpos
      · rw [if_neg hpos] at hsome
        exact absurd hsome (by simp)
  · simp only [buildHeatCells]
    by_cases hlen : points.length = 0
    · rw [if_pos hlen]
      simp
    · rw [if_neg hlen]
      refine le_trans (length_flatMap_le _ _ (heatCols W) ?_) ?_
      · intro r _
        exact le_trans (List.length_filterMap_le _ _) (by simp)
      · simp
  · intro p hnb
    by_cases hpts : points.length = 0
    · have hnil : points = [] := List.length_eq_zero.mp hpts
      subst hnil
      have hgrid : heatGrid [p] W H
          = List.replicate (heatRows H) (List.replicate (heatCols W) 0) := by
        simp only [heatGrid, List.foldl_cons, List.foldl_nil, accumPoint]
        rw [if_neg hnb]
      have hc1 : ¬(([p] : List HeatPt).length = 0) := by simp
      have hc2 : (([] : List HeatPt).length = 0) := rfl
      simp only [buildHeatCells]
      rw [if_neg hc1, if_pos hc2, hgrid]
      apply flatMap_range_nil
      intro r hr
      apply filterMap_range_nil
      intro c hc
      rw [gridEntry_replicate]
      simp
    · have hgrids : heatGrid (p :: points) W H = heatGrid points W H := by
        simp only [heatGrid, List.foldl_cons, accumPoint]
        rw [if_neg hnb]
      have hc1 : ¬((p :: points).length = 0) := by simp
      simp only [buildHeatCells]
      rw [if_neg hc1, if_neg hpts, hgrids]

/-- Witness for C7: the safety properties at a singleton point list in a
120 by 200 container. -/
theorem buildHeatCells_total_sparse_witness :
    (0:ℚ) < 120 ∧ (0:ℚ) < 200 ∧
    ((∀ cell ∈ buildHeatCells [{ x := 30, y := 50 }] 120 200, 1 ≤ cell.count) ∧
    (buildHeatCells [{ x := 30, y := 50 }] 120 200).length ≤ heatRows 200 * heatCols 120 ∧
    (∀ p : HeatPt,
      ¬(0 ≤ binRow p 200 (heatRows 200) ∧ binRow p 200 (heatRows 200) < ((heatRows 200 : ℕ) : ℤ) ∧
        0 ≤ binCol p 120 (heatCols 120) ∧ binCol p 120 (heatCols 120) < ((heatCols 120 : ℕ) : ℤ)) →
      buildHeatCells (p :: [{ x := 30, y := 50 }]) 120 200
        = buildHeatCells [{ x := 30, y := 50 }] 120 200)) :=
  ⟨by norm_num, by norm_num,
    buildHeatCells_total_sparse [{ x := 30, y := 50 }] 120 200 (by norm_num) (by norm_num)⟩

end ScreenTouch
